import Mathlib

/-!
Verification of the PhishQS tour-statistics calculation engine.

This file gives a shallow embedding of the two pure selectors in
`tourCalculations.js` (`calculateTourProgressiveRarestSongs` and
`calculateLongestSongs`) and of the aggregator failure policy in
`calculate-tour-stats.js` (`fetchTourDataForCalculation` together with
`getFallbackTrackDurations`), and proves the behavioural properties the
specification states about them.

Modelling conventions:
- JavaScript numbers appearing in the data (gaps, durations, play counts)
  are modelled as `Int`; a missing or non-numeric field is `none` of an
  `Option Int` (the `typeof x !== 'number'` guard in the source maps to the
  `none` case).
- A possibly-absent string field is `Option String`; the JavaScript
  "falsy" test on a string (`!s`, `s || d`) is true for both an absent
  field and the empty string, and the helpers `jsOrStr`, `jsOrNull`,
  `jsOrElse`, `jsOrInt` reproduce the `||` idiom exactly.
- A JavaScript `Map` is modelled as an association list in insertion
  order: `setMap` updates an existing key in place (keeping its position,
  as `Map.prototype.set` does) and appends a new key at the end;
  `Array.from(map.values())` is `mapValues`.
- `Array.prototype.sort` with the comparator `(a, b) => b.key - a.key` is,
  by the ECMAScript requirement that `sort` be stable, the unique stable
  descending sort by `key`; it is modelled by the stable insertion sort
  `sortByDesc`.
- Exceptions do not occur in the selectors (every operation is total on
  the modelled inputs); totality of the Lean functions models the
  "never raises" contract.
-/

/-- One gap observation attached to a show, as the JavaScript engine
receives it.  `songName` is `""` when the field is missing or empty (both
are falsy in the source's validation).  The fields `tourDate`/`tourVenue`
model date/venue data embedded in the observation itself by upstream code;
the reducer must never read them. -/
structure GapInfo where
  songName : String
  gap : Option Int
  lastPlayed : Option String
  timesPlayed : Option Int
  historicalVenue : Option String
  historicalCity : Option String
  historicalState : Option String
  historicalLastPlayed : Option String
  tourDate : Option String
  tourVenue : Option String
  deriving DecidableEq, Repr

/-- One show container: `songGaps` is `none` when the field is missing or
not an array (the `!show.songGaps || !Array.isArray(show.songGaps)` guard). -/
structure TourShow where
  showDate : String
  venue : Option String
  songGaps : Option (List GapInfo)
  deriving DecidableEq, Repr

/-- The enhanced entry stored in the `tourSongGaps` map (the object literal
built at `tourSongGaps.set` in the source). -/
structure RarestEntry where
  songName : String
  gap : Int
  lastPlayed : Option String
  tourDate : String
  tourVenue : String
  timesPlayed : Int
  historicalVenue : Option String
  historicalCity : Option String
  historicalState : Option String
  historicalLastPlayed : Option String
  deriving DecidableEq, Repr

/-- One track-duration record consumed by `calculateLongestSongs`.
`songName` is `""` when missing (falsy either way); `durationSeconds` is
`none` when missing or not a number. -/
structure Track where
  songName : String
  durationSeconds : Option Int
  showDate : Option String
  venue : Option String
  deriving DecidableEq, Repr

/-- JavaScript `s || d` on a string field producing a string. -/
def jsOrStr (o : Option String) (d : String) : String :=
  match o with
  | none => d
  | some s => if s = "" then d else s

/-- JavaScript `s || null` on a string field. -/
def jsOrNull (o : Option String) : Option String :=
  match o with
  | none => none
  | some s => if s = "" then none else some s

/-- JavaScript `a || b` on two string fields. -/
def jsOrElse (a b : Option String) : Option String :=
  match a with
  | none => b
  | some s => if s = "" then b else some s

/-- JavaScript `n || d` on a numeric field: `0` (and an absent field) is
falsy and yields the default. -/
def jsOrInt (o : Option Int) (d : Int) : Int :=
  match o with
  | none => d
  | some t => if t = 0 then d else t

/-- Association list modelling a JavaScript `Map` from song key to entry,
kept in insertion order. -/
abbrev GapMap := List (String × RarestEntry)

/-- `Map.prototype.get`. -/
def lookupMap (m : GapMap) (k : String) : Option RarestEntry :=
  match m with
  | [] => none
  | (k1, v) :: rest => if k1 = k then some v else lookupMap rest k

/-- `Map.prototype.set`: an existing key keeps its position, a new key is
appended at the end (JavaScript `Map` insertion-order semantics). -/
def setMap (m : GapMap) (k : String) (v : RarestEntry) : GapMap :=
  match m with
  | [] => [(k, v)]
  | (k1, v1) :: rest => if k1 = k then (k, v) :: rest else (k1, v1) :: setMap rest k v

/-- `Array.from(map.values())` in map insertion order. -/
def mapValues (m : GapMap) : List RarestEntry := m.map Prod.snd

/-- The validation at the head of the observation loop:
`!gapInfo.songName || typeof gapInfo.gap !== 'number' || gapInfo.gap < 0`
skips the observation; otherwise the numeric gap is produced. -/
def validGap (g : GapInfo) : Option Int :=
  if g.songName = "" then none
  else
    match g.gap with
    | none => none
    | some v => if v < 0 then none else some v

/-- `songName.toLowerCase()`: character-wise lower-casing of the song
name (the catalog's names are ASCII).  Implemented over the character
list, which is extensionally `String.toLower` but evaluates by kernel
reduction. -/
def jsToLower (s : String) : String := ⟨s.data.map Char.toLower⟩

/-- The normalized map key: `gapInfo.songName.toLowerCase()`. -/
def songKey (g : GapInfo) : String := jsToLower g.songName

/-- The object literal stored by `tourSongGaps.set` in the source:
`tourDate`/`tourVenue` come from the containing show only,
`timesPlayed` defaults via `||` to `100`, and the historical fields pass
through with `|| null` defaults.  `v` is the validated numeric gap
(`gapInfo.gap`). -/
def mkEntry (s : TourShow) (g : GapInfo) (v : Int) : RarestEntry :=
  { songName := g.songName
    gap := v
    lastPlayed := jsOrNull g.lastPlayed
    tourDate := s.showDate
    tourVenue := jsOrStr s.venue "Unknown Venue"
    timesPlayed := jsOrInt g.timesPlayed 100
    historicalVenue := jsOrNull g.historicalVenue
    historicalCity := jsOrNull g.historicalCity
    historicalState := jsOrNull g.historicalState
    historicalLastPlayed := jsOrElse g.historicalLastPlayed g.lastPlayed }

/-- Processing of one observation of one show (the body of the inner
`forEach`): skip invalid observations; otherwise replace the stored entry
exactly when there is no stored entry or the new gap is strictly greater
(`!existingGap || gapInfo.gap > existingGap.gap`). -/
def stepObs (s : TourShow) (m : GapMap) (g : GapInfo) : GapMap :=
  match validGap g with
  | none => m
  | some v =>
    match lookupMap m (songKey g) with
    | none => setMap m (songKey g) (mkEntry s g v)
    | some e => if e.gap < v then setMap m (songKey g) (mkEntry s g v) else m

/-- Processing of one show (the body of the outer `forEach`): a show whose
`songGaps` is missing or not an array is skipped. -/
def stepShow (m : GapMap) (s : TourShow) : GapMap :=
  match s.songGaps with
  | none => m
  | some gs => gs.foldl (stepObs s) m

/-- The `tourSongGaps` map after folding all shows in input order. -/
def buildGapMap (shows : List TourShow) : GapMap := shows.foldl stepShow []

/-- Stable insertion (descending by `key`): the new element `x`, which
comes from earlier in the input than everything already placed, goes in
front of the first element whose key is `≤ key x`, hence in front of all
elements with an equal key.  This is the placement the ECMAScript stable
`sort` with comparator `(a, b) => key b - key a` produces. -/
def insertByDesc (key : α → Int) (x : α) : List α → List α
  | [] => [x]
  | y :: ys => if key y ≤ key x then x :: y :: ys else y :: insertByDesc key x ys

/-- Stable descending sort by an integer key, modelling
`array.sort((a, b) => key(b) - key(a))`. -/
def sortByDesc (key : α → Int) : List α → List α
  | [] => []
  | x :: xs => insertByDesc key x (sortByDesc key xs)

/-- The gap key used by the final sort of the reducer. -/
def gapKey (e : RarestEntry) : Int := e.gap

/-- `calculateTourProgressiveRarestSongs` from `tourCalculations.js`:
validate the input array (an empty array returns `[]`), fold every show's
observations into the per-song map, then sort all retained entries
descending by gap and return the top 3 (`.sort((a, b) => b.gap - a.gap)
.slice(0, 3)`). -/
def calculateTourProgressiveRarestSongs (tourShows : List TourShow) : List RarestEntry :=
  if tourShows.isEmpty then []
  else (sortByDesc gapKey (mapValues (buildGapMap tourShows))).take 3

/-- The filter predicate of `calculateLongestSongs`:
`typeof track.durationSeconds === 'number' && track.durationSeconds > 0 &&
track.songName`. -/
def isValidTrack (t : Track) : Bool :=
  (match t.durationSeconds with
   | some d => decide (0 < d)
   | none => false) && decide (t.songName ≠ "")

/-- The full element test of the filter including the leading `track &&`
null check: a `none` element (a null/undefined slot) is dropped, a present
track survives exactly when `isValidTrack` holds. -/
def jsValidTrack (o : Option Track) : Option Track :=
  match o with
  | none => none
  | some t => if isValidTrack t then some t else none

/-- The duration key used by the sort comparator
`(a, b) => b.durationSeconds - a.durationSeconds`; on filtered tracks the
duration is always present, so the `getD` default is never exercised. -/
def durKey (t : Track) : Int := t.durationSeconds.getD 0

/-- `calculateLongestSongs` from `tourCalculations.js`: an empty input
array returns `[]`; otherwise filter to valid tracks, sort descending by
duration (stable), and take the top 3. -/
def calculateLongestSongs (trackDurations : List (Option Track)) : List Track :=
  if trackDurations.isEmpty then []
  else (sortByDesc durKey (trackDurations.filterMap jsValidTrack)).take 3

/-! ### Aggregator failure-policy model (`calculate-tour-stats.js`)

The external collaborators (network fetches) are modelled at the
collaborator boundary as `FetchResult` values: `ok` carries the data a
successful fetch would produce, `err` is a thrown transport error. -/

/-- Outcome of one external fetch. -/
inductive FetchResult (α : Type) where
  | ok (value : α)
  | err
  deriving DecidableEq, Repr

/-- The latest show's setlist as consumed by the fallback path: the song
names extracted by `extractSongNames` and the raw venue field of the API
response. -/
structure Setlist where
  songNames : List String
  venue : Option String
  deriving DecidableEq, Repr

/-- `extractVenue`: the first truthy venue field of the API response (here
abstracted to one optional field), rejected when it is the literal
`'Unknown Venue'`; otherwise the sentinel is returned. -/
def extractVenue (venueField : Option String) : String :=
  match venueField with
  | none => "Unknown Venue"
  | some v => if v = "" ∨ v = "Unknown Venue" then "Unknown Venue" else v

/-- `getFallbackTrackDurations`: from the latest show's setlist build up to
5 placeholder records with durations `600 - 60*i`, all attributed to the
latest show; if even the setlist fetch fails, return `[]`. -/
def getFallbackTrackDurations (setlistFetch : FetchResult Setlist)
    (latestShowDate : String) : List (Option Track) :=
  match setlistFetch with
  | .err => []
  | .ok sl =>
    (sl.songNames.take 5).enum.map (fun p =>
      some { songName := p.2
             durationSeconds := some (600 - 60 * (p.1 : Int))
             showDate := some latestShowDate
             venue := some (extractVenue sl.venue) })

/-- `fetchTourShowsWithGaps`: the tour-wide show fetch and per-show
enhancement, abstracted at the collaborator boundary; its own
`try`/`catch` turns a failed tour-wide fetch into `[]`. -/
def fetchTourShowsWithGaps (showsFetch : FetchResult (List TourShow)) : List TourShow :=
  match showsFetch with
  | .ok l => l
  | .err => []

/-- The tour data handed to the shared calculation engine. -/
structure TourData where
  allTourTrackDurations : List (Option Track)
  tourShows : List TourShow
  deriving DecidableEq, Repr

/-- `fetchTourDataForCalculation`: a thrown track-duration fetch lands in
the `catch` branch, which pairs the fallback durations with an empty show
list; a successful but empty duration fetch keeps the show fetch but
substitutes the fallback durations; otherwise both fetches are used. -/
def fetchTourDataForCalculation (durationsFetch : FetchResult (List (Option Track)))
    (showsFetch : FetchResult (List TourShow))
    (setlistFetch : FetchResult Setlist)
    (latestShowDate : String) : TourData :=
  match durationsFetch with
  | .err =>
    { allTourTrackDurations := getFallbackTrackDurations setlistFetch latestShowDate
      tourShows := [] }
  | .ok durations =>
    if durations.isEmpty then
      { allTourTrackDurations := getFallbackTrackDurations setlistFetch latestShowDate
        tourShows := fetchTourShowsWithGaps showsFetch }
    else
      { allTourTrackDurations := durations
        tourShows := fetchTourShowsWithGaps showsFetch }

/-! ### Mutation model

The only mutating array operation the selectors use is
`Array.prototype.sort`, and each call's receiver is an array freshly
allocated inside the call (`Array.from(map.values())`, `.filter(...)`).
The trace variants make the receiver of every mutation explicit and
return the final contents of the input array alongside the result. -/

/-- `calculateLongestSongs` with the input array's final contents made
explicit: `.filter` allocates a fresh array and the in-place `.sort` acts
on that fresh array, so the input contents are returned unchanged. -/
def calculateLongestSongsTrace (trackDurations : List (Option Track)) :
    List Track × List (Option Track) :=
  if trackDurations.isEmpty then ([], trackDurations)
  else
    let fresh := trackDurations.filterMap jsValidTrack
    let sorted := sortByDesc durKey fresh
    (sorted.take 3, trackDurations)

/-- `calculateTourProgressiveRarestSongs` with the input array's final
contents made explicit: the map and the `Array.from` copy of its values
are fresh, and the in-place `.sort` acts on that copy only. -/
def calculateTourProgressiveRarestSongsTrace (tourShows : List TourShow) :
    List RarestEntry × List TourShow :=
  if tourShows.isEmpty then ([], tourShows)
  else
    let fresh := mapValues (buildGapMap tourShows)
    let sorted := sortByDesc gapKey fresh
    (sorted.take 3, tourShows)

/-! ### Analysis definitions

These definitions restate the reducer's fold as a fold over the flattened
observation stream, and give the single-song reference reduction the
correctness claims are phrased against. -/

/-- A validated observation: the containing show, the raw observation and
its validated gap. -/
abbrev Obs3 := TourShow × GapInfo × Int

/-- The gap of a validated observation. -/
def gapOf (o : Obs3) : Int := o.2.2

/-- The stored entry a validated observation would produce. -/
def entryOf (o : Obs3) : RarestEntry := mkEntry o.1 o.2.1 o.2.2

/-- The observations of one show, paired with their show. -/
def showObsList (s : TourShow) : List (TourShow × GapInfo) :=
  match s.songGaps with
  | none => []
  | some gs => gs.map (fun g => (s, g))

/-- All observations of all shows, in processing order. -/
def allObs (shows : List TourShow) : List (TourShow × GapInfo) :=
  (shows.map showObsList).flatten

/-- The valid observations with a given normalized song key, in processing
order. -/
def obsOf (obs : List (TourShow × GapInfo)) (k : String) : List Obs3 :=
  obs.filterMap (fun p =>
    match validGap p.2 with
    | some v => if songKey p.2 = k then some (p.1, p.2, v) else none
    | none => none)

/-- The valid observations of a song across a list of shows. -/
def obsFor (shows : List TourShow) (k : String) : List Obs3 :=
  obsOf (allObs shows) k

/-- One step of the single-song reference reduction: keep the current best
unless the new gap is strictly greater. -/
def bestStep (b : Option Obs3) (y : Obs3) : Option Obs3 :=
  match b with
  | none => some y
  | some x => if gapOf x < gapOf y then some y else some x

/-- The single-song reference reduction. -/
def bestFold (c : Option Obs3) (l : List Obs3) : Option Obs3 := l.foldl bestStep c

/-- One fold step over the flattened observation stream. -/
def stepPair (m : GapMap) (p : TourShow × GapInfo) : GapMap := stepObs p.1 m p.2

/-! ### Lemmas about the map model -/

lemma lookupMap_setMap_self (m : GapMap) (k : String) (v : RarestEntry) :
    lookupMap (setMap m k v) k = some v := by
  induction m with
  | nil => simp [setMap, lookupMap]
  | cons p rest ih =>
    obtain ⟨k1, v1⟩ := p
    by_cases hk : k1 = k
    · simp [setMap, hk, lookupMap]
    · simp [setMap, hk, lookupMap, ih]

lemma lookupMap_setMap_other (m : GapMap) (k k1 : String) (v : RarestEntry)
    (h : k1 ≠ k) : lookupMap (setMap m k1 v) k = lookupMap m k := by
  induction m with
  | nil => simp [setMap, lookupMap, h]
  | cons p rest ih =>
    obtain ⟨k2, v2⟩ := p
    by_cases hk : k2 = k1
    · subst hk
      simp only [setMap, if_pos rfl, lookupMap, if_neg h]
    · simp only [setMap, if_neg hk, lookupMap]
      by_cases hk2 : k2 = k
      · simp [hk2]
      · simp [hk2, ih]

lemma stepObs_eq_skip (s : TourShow) (m : GapMap) (g : GapInfo)
    (hv : validGap g = none) : stepObs s m g = m := by
  simp [stepObs, hv]

lemma stepObs_eq_add (s : TourShow) (m : GapMap) (g : GapInfo) (v : Int)
    (hv : validGap g = some v) (hl : lookupMap m (songKey g) = none) :
    stepObs s m g = setMap m (songKey g) (mkEntry s g v) := by
  simp [stepObs, hv, hl]

lemma stepObs_eq_replace (s : TourShow) (m : GapMap) (g : GapInfo) (v : Int) (e : RarestEntry)
    (hv : validGap g = some v) (hl : lookupMap m (songKey g) = some e) (hlt : e.gap < v) :
    stepObs s m g = setMap m (songKey g) (mkEntry s g v) := by
  simp [stepObs, hv, hl, hlt]

lemma stepObs_eq_keep (s : TourShow) (m : GapMap) (g : GapInfo) (v : Int) (e : RarestEntry)
    (hv : validGap g = some v) (hl : lookupMap m (songKey g) = some e) (hlt : ¬e.gap < v) :
    stepObs s m g = m := by
  simp [stepObs, hv, hl, hlt]

lemma bestStep_none (y : Obs3) : bestStep none y = some y := rfl

lemma bestStep_lt (x y : Obs3) (h : gapOf x < gapOf y) : bestStep (some x) y = some y := by
  simp [bestStep, h]

lemma bestStep_ge (x y : Obs3) (h : ¬gapOf x < gapOf y) : bestStep (some x) y = some x := by
  simp [bestStep, h]

lemma lookupMap_stepObs_other (s : TourShow) (m : GapMap) (g : GapInfo) (k : String)
    (h : songKey g ≠ k) : lookupMap (stepObs s m g) k = lookupMap m k := by
  cases hv : validGap g with
  | none => rw [stepObs_eq_skip s m g hv]
  | some v =>
    cases hl : lookupMap m (songKey g) with
    | none =>
      rw [stepObs_eq_add s m g v hv hl]
      exact lookupMap_setMap_other m k (songKey g) _ h
    | some e =>
      by_cases hlt : e.gap < v
      · rw [stepObs_eq_replace s m g v e hv hl hlt]
        exact lookupMap_setMap_other m k (songKey g) _ h
      · rw [stepObs_eq_keep s m g v e hv hl hlt]

/-! ### The fold over the flattened observation stream -/

lemma entryOf_gap (o : Obs3) : (entryOf o).gap = gapOf o := rfl

lemma lookup_foldl_stepPair (obs : List (TourShow × GapInfo)) (m : GapMap) (k : String)
    (c : Option Obs3) (hc : lookupMap m k = Option.map entryOf c) :
    lookupMap (obs.foldl stepPair m) k = Option.map entryOf (bestFold c (obsOf obs k)) := by
  induction obs generalizing m c with
  | nil => exact hc
  | cons p rest ih =>
    obtain ⟨s, g⟩ := p
    rw [List.foldl_cons]
    cases hv : validGap g with
    | none =>
      have hobs : obsOf ((s, g) :: rest) k = obsOf rest k := by
        simp [obsOf, List.filterMap_cons, hv]
      have hstep : stepPair m (s, g) = m := stepObs_eq_skip s m g hv
      rw [hobs, hstep]
      exact ih m c hc
    | some v =>
      by_cases hk : songKey g = k
      · have hobs : obsOf ((s, g) :: rest) k = (s, g, v) :: obsOf rest k := by
          simp [obsOf, List.filterMap_cons, hv, hk]
        rw [hobs]
        have hbf : bestFold c ((s, g, v) :: obsOf rest k) =
            bestFold (bestStep c (s, g, v)) (obsOf rest k) := rfl
        rw [hbf]
        apply ih
        show lookupMap (stepObs s m g) k = Option.map entryOf (bestStep c (s, g, v))
        cases c with
        | none =>
          simp only [Option.map_none'] at hc
          have hl : lookupMap m (songKey g) = none := by rw [hk]; exact hc
          rw [stepObs_eq_add s m g v hv hl, hk, lookupMap_setMap_self, bestStep_none]
          rfl
        | some x =>
          simp only [Option.map_some'] at hc
          have hl : lookupMap m (songKey g) = some (entryOf x) := by rw [hk]; exact hc
          by_cases hlt : (entryOf x).gap < v
          · rw [stepObs_eq_replace s m g v (entryOf x) hv hl hlt, hk, lookupMap_setMap_self]
            rw [entryOf_gap] at hlt
            rw [bestStep_lt x (s, g, v) hlt]
            rfl
          · rw [stepObs_eq_keep s m g v (entryOf x) hv hl hlt, hc]
            rw [entryOf_gap] at hlt
            rw [bestStep_ge x (s, g, v) hlt]
            rfl
      · have hobs : obsOf ((s, g) :: rest) k = obsOf rest k := by
          simp [obsOf, List.filterMap_cons, hv, hk]
        rw [hobs]
        apply ih
        show lookupMap (stepObs s m g) k = Option.map entryOf c
        rw [lookupMap_stepObs_other s m g k hk]
        exact hc

lemma stepShow_eq_foldl (m : GapMap) (s : TourShow) :
    stepShow m s = (showObsList s).foldl stepPair m := by
  unfold stepShow showObsList
  cases s.songGaps with
  | none => rfl
  | some gs =>
    rw [List.foldl_map]
    rfl

lemma foldl_stepShow_eq (shows : List TourShow) (m : GapMap) :
    shows.foldl stepShow m = (allObs shows).foldl stepPair m := by
  induction shows generalizing m with
  | nil => rfl
  | cons s rest ih =>
    have hallObs : allObs (s :: rest) = showObsList s ++ allObs rest := by
      simp [allObs]
    rw [List.foldl_cons, ih, hallObs, List.foldl_append, stepShow_eq_foldl]

/-- The stored entry for a song key is the reference single-song reduction
applied to that song's valid observations, in order. -/
lemma lookup_buildGapMap (shows : List TourShow) (k : String) :
    lookupMap (buildGapMap shows) k = Option.map entryOf (bestFold none (obsFor shows k)) := by
  unfold buildGapMap obsFor
  rw [foldl_stepShow_eq]
  exact lookup_foldl_stepPair (allObs shows) [] k none rfl

/-- The single-song reference reduction selects the chronologically first
observation attaining the maximal gap. -/
lemma bestFold_none_spec (l : List Obs3) (h : l ≠ []) :
    ∃ (i : Nat) (o : Obs3), l[i]? = some o ∧ bestFold none l = some o ∧
      (∀ x ∈ l, gapOf x ≤ gapOf o) ∧
      (∀ j, j < i → ∀ x, l[j]? = some x → gapOf x < gapOf o) := by
  induction l using List.reverseRecOn with
  | nil => exact absurd rfl h
  | append_singleton l y ih =>
    rcases eq_or_ne l [] with rfl | hl
    · refine ⟨0, y, rfl, rfl, ?_, ?_⟩
      · intro x hx
        have : x = y := by simpa using hx
        subst this
        exact le_refl _
      · intro j hj
        omega
    · obtain ⟨i, o, hget, hfold, hmax, hfirst⟩ := ih hl
      have hfold2 : bestFold none (l ++ [y]) = bestStep (some o) y := by
        unfold bestFold at hfold ⊢
        rw [List.foldl_append, hfold]
        rfl
      have hi : i < l.length := by
        obtain ⟨hlen, _⟩ := List.getElem?_eq_some.mp hget
        exact hlen
      by_cases hlt : gapOf o < gapOf y
      · refine ⟨l.length, y, by simp, ?_, ?_, ?_⟩
        · rw [hfold2]; simp [bestStep, hlt]
        · intro x hx
          rcases List.mem_append.mp hx with hx | hx
          · exact le_of_lt (lt_of_le_of_lt (hmax x hx) hlt)
          · have : x = y := by simpa using hx
            subst this
            exact le_refl _
        · intro j hj x hxj
          rw [List.getElem?_append_left hj] at hxj
          exact lt_of_le_of_lt (hmax x (List.getElem?_mem hxj)) hlt
      · refine ⟨i, o, ?_, ?_, ?_, ?_⟩
        · rw [List.getElem?_append_left hi]; exact hget
        · rw [hfold2]; simp [bestStep, hlt]
        · intro x hx
          rcases List.mem_append.mp hx with hx | hx
          · exact hmax x hx
          · have : x = y := by simpa using hx
            subst this
            exact not_lt.mp hlt
        · intro j hj x hxj
          have hjl : j < l.length := lt_trans hj hi
          rw [List.getElem?_append_left hjl] at hxj
          exact hfirst j hj x hxj

/-! ### Lemmas about the stable descending sort -/

lemma insertByDesc_perm (key : α → Int) (x : α) (l : List α) :
    List.Perm (insertByDesc key x l) (x :: l) := by
  induction l with
  | nil => exact List.Perm.refl _
  | cons y ys ih =>
    by_cases hle : key y ≤ key x
    · simp only [insertByDesc, if_pos hle]
      exact List.Perm.refl _
    · simp only [insertByDesc, if_neg hle]
      exact (List.Perm.cons y ih).trans (List.Perm.swap x y ys)

lemma sortByDesc_perm (key : α → Int) (l : List α) :
    List.Perm (sortByDesc key l) l := by
  induction l with
  | nil => exact List.Perm.refl _
  | cons x xs ih => exact (insertByDesc_perm key x (sortByDesc key xs)).trans (List.Perm.cons x ih)

lemma mem_insertByDesc (key : α → Int) (x b : α) (l : List α) :
    b ∈ insertByDesc key x l ↔ b = x ∨ b ∈ l := by
  rw [(insertByDesc_perm key x l).mem_iff, List.mem_cons]

lemma insertByDesc_pairwise (key : α → Int) (x : α) (l : List α)
    (h : l.Pairwise (fun a b => key b ≤ key a)) :
    (insertByDesc key x l).Pairwise (fun a b => key b ≤ key a) := by
  induction l with
  | nil => simp [insertByDesc]
  | cons y ys ih =>
    rw [List.pairwise_cons] at h
    obtain ⟨hy, hys⟩ := h
    by_cases hle : key y ≤ key x
    · simp only [insertByDesc, if_pos hle]
      refine List.Pairwise.cons ?_ (List.Pairwise.cons hy hys)
      intro b hb
      rcases List.mem_cons.mp hb with rfl | hb
      · exact hle
      · exact le_trans (hy b hb) hle
    · simp only [insertByDesc, if_neg hle]
      refine List.Pairwise.cons ?_ (ih hys)
      intro b hb
      rcases (mem_insertByDesc key x b ys).mp hb with rfl | hb2
      · exact le_of_lt (not_le.mp hle)
      · exact hy b hb2

lemma sortByDesc_pairwise (key : α → Int) (l : List α) :
    (sortByDesc key l).Pairwise (fun a b => key b ≤ key a) := by
  induction l with
  | nil => exact List.Pairwise.nil
  | cons x xs ih => exact insertByDesc_pairwise key x (sortByDesc key xs) ih

lemma filter_insertByDesc_eq (key : α → Int) (x : α) (l : List α) (g : Int)
    (hx : key x = g) :
    (insertByDesc key x l).filter (fun a => key a == g) =
      x :: l.filter (fun a => key a == g) := by
  induction l with
  | nil => simp [insertByDesc, List.filter_cons, hx]
  | cons y ys ih =>
    by_cases hle : key y ≤ key x
    · simp only [insertByDesc, if_pos hle]
      rw [List.filter_cons, if_pos (by simp [hx])]
    · simp only [insertByDesc, if_neg hle]
      have hyne : ¬(key y == g) = true := by
        simp only [beq_iff_eq]
        intro hcon
        exact hle (le_of_eq (hx ▸ hcon))
      rw [List.filter_cons, if_neg hyne, ih, List.filter_cons, if_neg hyne]

lemma filter_insertByDesc_ne (key : α → Int) (x : α) (l : List α) (g : Int)
    (hx : key x ≠ g) :
    (insertByDesc key x l).filter (fun a => key a == g) =
      l.filter (fun a => key a == g) := by
  induction l with
  | nil => simp [insertByDesc, List.filter_cons, hx]
  | cons y ys ih =>
    by_cases hle : key y ≤ key x
    · simp only [insertByDesc, if_pos hle]
      rw [List.filter_cons, if_neg (by simp [hx])]
    · simp only [insertByDesc, if_neg hle]
      rw [List.filter_cons, ih, List.filter_cons]

/-- Stability of the descending sort: within each equal-key class the
output keeps exactly the input's elements in the input's order. -/
lemma sortByDesc_filter_stable (key : α → Int) (l : List α) (g : Int) :
    (sortByDesc key l).filter (fun a => key a == g) =
      l.filter (fun a => key a == g) := by
  induction l with
  | nil => rfl
  | cons x xs ih =>
    show (insertByDesc key x (sortByDesc key xs)).filter (fun a => key a == g) = _
    by_cases hx : key x = g
    · rw [filter_insertByDesc_eq key x _ g hx, ih, List.filter_cons, if_pos (by simp [hx])]
    · rw [filter_insertByDesc_ne key x _ g hx, ih, List.filter_cons, if_neg (by simp [hx])]

/-- A pairwise-ordered list is in particular ordered at every adjacent
pair of positions. -/
lemma pairwise_adjacent {R : α → α → Prop} (l : List α) (h : l.Pairwise R) :
    ∀ (i : Nat) (a b : α), l[i]? = some a → l[i + 1]? = some b → R a b := by
  intro i a b ha hb
  obtain ⟨hi, hia⟩ := List.getElem?_eq_some.mp ha
  obtain ⟨hbi, hib⟩ := List.getElem?_eq_some.mp hb
  have := (List.pairwise_iff_getElem.mp h) i (i + 1) hi hbi (by omega)
  rw [hia, hib] at this
  exact this

/-! ### Sourcing of the retained entries -/

lemma mem_values_setMap (m : GapMap) (k : String) (x e : RarestEntry)
    (he : e ∈ mapValues (setMap m k x)) : e = x ∨ e ∈ mapValues m := by
  induction m with
  | nil =>
    simp [setMap, mapValues] at he
    exact Or.inl he
  | cons p rest ih =>
    obtain ⟨k1, v1⟩ := p
    by_cases hk : k1 = k
    · simp only [setMap, if_pos hk, mapValues, List.map_cons, List.mem_cons] at he
      rcases he with rfl | he
      · exact Or.inl rfl
      · exact Or.inr (by simp [mapValues, List.mem_cons, he])
    · simp only [setMap, if_neg hk, mapValues, List.map_cons, List.mem_cons] at he
      rcases he with rfl | he
      · exact Or.inr (by simp [mapValues])
      · rcases ih he with h | h
        · exact Or.inl h
        · exact Or.inr (by simp [mapValues] at h ⊢; exact Or.inr h)

lemma mem_values_stepObs (s : TourShow) (m : GapMap) (g : GapInfo) (e : RarestEntry)
    (he : e ∈ mapValues (stepObs s m g)) :
    e ∈ mapValues m ∨ ∃ v, validGap g = some v ∧ e = mkEntry s g v := by
  cases hv : validGap g with
  | none =>
    rw [stepObs_eq_skip s m g hv] at he
    exact Or.inl he
  | some v =>
    cases hl : lookupMap m (songKey g) with
    | none =>
      rw [stepObs_eq_add s m g v hv hl] at he
      rcases mem_values_setMap m (songKey g) (mkEntry s g v) e he with h | h
      · exact Or.inr ⟨v, rfl, h⟩
      · exact Or.inl h
    | some ex =>
      by_cases hlt : ex.gap < v
      · rw [stepObs_eq_replace s m g v ex hv hl hlt] at he
        rcases mem_values_setMap m (songKey g) (mkEntry s g v) e he with h | h
        · exact Or.inr ⟨v, rfl, h⟩
        · exact Or.inl h
      · rw [stepObs_eq_keep s m g v ex hv hl hlt] at he
        exact Or.inl he

lemma mem_values_foldl_stepObs (s : TourShow) (gs : List GapInfo) (m : GapMap)
    (e : RarestEntry) (he : e ∈ mapValues (gs.foldl (stepObs s) m)) :
    e ∈ mapValues m ∨ ∃ g ∈ gs, ∃ v, validGap g = some v ∧ e = mkEntry s g v := by
  induction gs generalizing m with
  | nil => exact Or.inl he
  | cons g rest ih =>
    rw [List.foldl_cons] at he
    rcases ih (stepObs s m g) he with hm | ⟨g2, hg2, v, hv, he2⟩
    · rcases mem_values_stepObs s m g e hm with h | ⟨v, hv, he2⟩
      · exact Or.inl h
      · exact Or.inr ⟨g, List.mem_cons_self g rest, v, hv, he2⟩
    · exact Or.inr ⟨g2, List.mem_cons_of_mem g hg2, v, hv, he2⟩

lemma mem_values_foldl_stepShow (shows : List TourShow) (m : GapMap) (e : RarestEntry)
    (he : e ∈ mapValues (shows.foldl stepShow m)) :
    e ∈ mapValues m ∨ ∃ s ∈ shows, ∃ gs, s.songGaps = some gs ∧
      ∃ g ∈ gs, ∃ v, validGap g = some v ∧ e = mkEntry s g v := by
  induction shows generalizing m with
  | nil => exact Or.inl he
  | cons s rest ih =>
    rw [List.foldl_cons] at he
    rcases ih (stepShow m s) he with hm | ⟨s2, hs2, gs, hgs, g, hg, v, hv, he2⟩
    · cases hsg : s.songGaps with
      | none =>
        unfold stepShow at hm
        rw [hsg] at hm
        exact Or.inl hm
      | some gs =>
        unfold stepShow at hm
        rw [hsg] at hm
        rcases mem_values_foldl_stepObs s gs m e hm with h | ⟨g, hg, v, hv, he2⟩
        · exact Or.inl h
        · exact Or.inr ⟨s, List.mem_cons_self s rest, gs, hsg, g, hg, v, hv, he2⟩
    · exact Or.inr ⟨s2, List.mem_cons_of_mem s hs2, gs, hgs, g, hg, v, hv, he2⟩

/-- Every record in the reducer's output is the stored entry produced by
some valid observation of some input show. -/
lemma rarest_output_sourced (shows : List TourShow) (e : RarestEntry)
    (he : e ∈ calculateTourProgressiveRarestSongs shows) :
    ∃ s ∈ shows, ∃ gs, s.songGaps = some gs ∧
      ∃ g ∈ gs, ∃ v, validGap g = some v ∧ e = mkEntry s g v := by
  have h1 : e ∈ mapValues (buildGapMap shows) := by
    unfold calculateTourProgressiveRarestSongs at he
    by_cases hempty : shows.isEmpty
    · rw [if_pos hempty] at he
      exact absurd he (List.not_mem_nil e)
    · rw [if_neg hempty] at he
      exact (sortByDesc_perm gapKey (mapValues (buildGapMap shows))).mem_iff.mp
        (List.mem_of_mem_take he)
  rcases mem_values_foldl_stepShow shows [] e h1 with h | h
  · exact absurd h (List.not_mem_nil e)
  · exact h

/-! ### Concrete reference data -/

/-- An observation carrying only a song name and a gap, all optional
fields absent. -/
def plainGapInfo (name : String) (g : Int) : GapInfo :=
  { songName := name, gap := some g, lastPlayed := none, timesPlayed := none,
    historicalVenue := none, historicalCity := none, historicalState := none,
    historicalLastPlayed := none, tourDate := none, tourVenue := none }

def demoShow1 : TourShow :=
  { showDate := "2025-06-24", venue := some "Bethel Woods Center for the Arts",
    songGaps := some [plainGapInfo "Paul and Silas" 323] }

def demoShow2 : TourShow :=
  { showDate := "2025-07-11", venue := some "Pine Knob Music Theatre",
    songGaps := some [plainGapInfo "Devotion To A Dream" 322] }

def demoShow3 : TourShow :=
  { showDate := "2025-07-18", venue := some "United Center",
    songGaps := some [plainGapInfo "On Your Way Down" 522] }

/-- The three-show reference scenario of the specification. -/
def demoShows : List TourShow := [demoShow1, demoShow2, demoShow3]

def demoEntryOYWD : RarestEntry :=
  { songName := "On Your Way Down", gap := 522, lastPlayed := none,
    tourDate := "2025-07-18", tourVenue := "United Center", timesPlayed := 100,
    historicalVenue := none, historicalCity := none, historicalState := none,
    historicalLastPlayed := none }

def demoEntryPAS : RarestEntry :=
  { songName := "Paul and Silas", gap := 323, lastPlayed := none,
    tourDate := "2025-06-24", tourVenue := "Bethel Woods Center for the Arts",
    timesPlayed := 100, historicalVenue := none, historicalCity := none,
    historicalState := none, historicalLastPlayed := none }

def demoEntryDTAD : RarestEntry :=
  { songName := "Devotion To A Dream", gap := 322, lastPlayed := none,
    tourDate := "2025-07-11", tourVenue := "Pine Knob Music Theatre",
    timesPlayed := 100, historicalVenue := none, historicalCity := none,
    historicalState := none, historicalLastPlayed := none }

/-- A show whose only observation has gap 0. -/
def gapZeroShow : TourShow :=
  { showDate := "2025-07-25", venue := some "Broadview Stage at SPAC",
    songGaps := some [plainGapInfo "Tweezer Reprise" 0] }

/-- An observation carrying embedded date/venue fields that differ from
its containing show. -/
def attrObs : GapInfo :=
  { songName := "Walfredo", gap := some 57, lastPlayed := some "2021-08-08",
    timesPlayed := some 12, historicalVenue := some "Deer Creek",
    historicalCity := some "Noblesville", historicalState := some "IN",
    historicalLastPlayed := none, tourDate := some "1999-12-31",
    tourVenue := some "Embedded Wrong Venue" }

/-- A show with an absent venue containing `attrObs`. -/
def attrShow : TourShow :=
  { showDate := "2025-07-20", venue := none, songGaps := some [attrObs] }

def attrEntry : RarestEntry :=
  { songName := "Walfredo", gap := 57, lastPlayed := some "2021-08-08",
    tourDate := "2025-07-20", tourVenue := "Unknown Venue", timesPlayed := 12,
    historicalVenue := some "Deer Creek", historicalCity := some "Noblesville",
    historicalState := some "IN", historicalLastPlayed := some "2021-08-08" }

/-- An observation whose `timesPlayed` is explicitly 0. -/
def tpObs : GapInfo :=
  { songName := "Fluffhead", gap := some 41, lastPlayed := some "2024-08-15",
    timesPlayed := some 0, historicalVenue := none, historicalCity := none,
    historicalState := none, historicalLastPlayed := none, tourDate := none,
    tourVenue := none }

def tpShow : TourShow :=
  { showDate := "2025-07-21", venue := some "Alpine Valley", songGaps := some [tpObs] }

def tpEntry : RarestEntry :=
  { songName := "Fluffhead", gap := 41, lastPlayed := some "2024-08-15",
    tourDate := "2025-07-21", tourVenue := "Alpine Valley", timesPlayed := 100,
    historicalVenue := none, historicalCity := none, historicalState := none,
    historicalLastPlayed := some "2024-08-15" }

def demoTrackSand : Track :=
  { songName := "Sand", durationSeconds := some 2383,
    showDate := some "2025-07-11", venue := some "Pine Knob Music Theatre" }

/-- A track list containing a null slot and an invalid record. -/
def demoTracks : List (Option Track) :=
  [some demoTrackSand,
   none,
   some { songName := "", durationSeconds := some 9999, showDate := none, venue := none },
   some { songName := "Tweezer", durationSeconds := some 1383,
          showDate := some "2025-07-18", venue := some "United Center" }]

def fallbackTrackA : Track :=
  { songName := "Sample In A Jar", durationSeconds := some 600,
    showDate := some "2025-07-27", venue := some "Unknown Venue" }

/-! ### Claim theorems -/

/-- Claim C1: for every input sequence of shows and every song (identified
by its lower-cased name), the reducer retains no entry when the song has no
valid observation; otherwise it retains exactly an observation attaining
the maximum gap observed for that song across all shows — the
chronologically first observation attaining that maximum, since every
earlier observation has a strictly smaller gap; and a stored entry is
replaced only by a strictly greater gap, so an equal gap never overwrites. -/
theorem rarest_retains_first_maximal_gap (shows : List TourShow) (k : String) :
    (obsFor shows k = [] → lookupMap (buildGapMap shows) k = none) ∧
    (obsFor shows k ≠ [] →
      ∃ (i : Nat) (o : Obs3), (obsFor shows k)[i]? = some o ∧
        lookupMap (buildGapMap shows) k = some (entryOf o) ∧
        (∀ x ∈ obsFor shows k, gapOf x ≤ gapOf o) ∧
        (∀ j, j < i → ∀ x, (obsFor shows k)[j]? = some x → gapOf x < gapOf o)) ∧
    (∀ (s : TourShow) (m : GapMap) (g : GapInfo) (v : Int) (e : RarestEntry),
      validGap g = some v → lookupMap m (songKey g) = some e → v ≤ e.gap →
      stepObs s m g = m) := by
  refine ⟨?_, ?_, ?_⟩
  · intro h
    rw [lookup_buildGapMap, h]
    rfl
  · intro h
    obtain ⟨i, o, h1, h2, h3, h4⟩ := bestFold_none_spec (obsFor shows k) h
    refine ⟨i, o, h1, ?_, h3, h4⟩
    rw [lookup_buildGapMap, h2]
    rfl
  · intro s m g v e hv hl hle
    exact stepObs_eq_keep s m g v e hv hl (not_lt.mpr hle)

theorem rarest_retains_first_maximal_gap_witness :
    obsFor demoShows "paul and silas" ≠ [] ∧
    (∃ (i : Nat) (o : Obs3), (obsFor demoShows "paul and silas")[i]? = some o ∧
      lookupMap (buildGapMap demoShows) "paul and silas" = some (entryOf o) ∧
      (∀ x ∈ obsFor demoShows "paul and silas", gapOf x ≤ gapOf o) ∧
      (∀ j, j < i → ∀ x, (obsFor demoShows "paul and silas")[j]? = some x →
        gapOf x < gapOf o)) := by
  have h : obsFor demoShows "paul and silas" ≠ [] := by decide
  exact ⟨h, (rarest_retains_first_maximal_gap demoShows "paul and silas").2.1 h⟩

/-- Claim C2: every record retained by the reducer takes its `tourDate`
and `tourVenue` from the show container that produced the winning
observation — `tourDate` equals the containing show's `showDate` and
`tourVenue` equals the containing show's `venue` (never any field embedded
in the observation itself), with the sentinel "Unknown Venue" stored when
the show's venue is absent. -/
theorem rarest_attribution_from_show (shows : List TourShow) (e : RarestEntry)
    (he : e ∈ calculateTourProgressiveRarestSongs shows) :
    ∃ s ∈ shows, ∃ gs, s.songGaps = some gs ∧ ∃ g ∈ gs, ∃ v, validGap g = some v ∧
      e = mkEntry s g v ∧
      e.tourDate = s.showDate ∧
      e.tourVenue = jsOrStr s.venue "Unknown Venue" ∧
      ((s.venue = none ∨ s.venue = some "") → e.tourVenue = "Unknown Venue") := by
  obtain ⟨s, hs, gs, hgs, g, hg, v, hv, he2⟩ := rarest_output_sourced shows e he
  subst he2
  refine ⟨s, hs, gs, hgs, g, hg, v, hv, rfl, rfl, rfl, ?_⟩
  rintro (h | h) <;> simp [mkEntry, jsOrStr, h]

theorem rarest_attribution_from_show_witness :
    ∃ s ∈ [attrShow], ∃ gs, s.songGaps = some gs ∧ ∃ g ∈ gs, ∃ v, validGap g = some v ∧
      attrEntry = mkEntry s g v ∧
      attrEntry.tourDate = s.showDate ∧
      attrEntry.tourVenue = jsOrStr s.venue "Unknown Venue" ∧
      ((s.venue = none ∨ s.venue = some "") → attrEntry.tourVenue = "Unknown Venue") :=
  rarest_attribution_from_show [attrShow] attrEntry (by decide)

/-- Claim C3: the reducer's output is exactly the retained entries in map
insertion order, stably sorted in non-increasing order of gap and truncated
to at most 3 records: adjacent output records satisfy
`gap[i+1] ≤ gap[i]`, and the sort keeps equal-gap entries in the values'
(insertion) order, as the filter-stability conjunct states. -/
theorem rarest_output_sorted_top3 (shows : List TourShow) :
    calculateTourProgressiveRarestSongs shows =
      (sortByDesc gapKey (mapValues (buildGapMap shows))).take 3 ∧
    (calculateTourProgressiveRarestSongs shows).length ≤ 3 ∧
    List.Pairwise (fun a b : RarestEntry => b.gap ≤ a.gap)
      (calculateTourProgressiveRarestSongs shows) ∧
    (∀ (i : Nat) (a b : RarestEntry),
      (calculateTourProgressiveRarestSongs shows)[i]? = some a →
      (calculateTourProgressiveRarestSongs shows)[i + 1]? = some b → b.gap ≤ a.gap) ∧
    (∀ g : Int,
      (sortByDesc gapKey (mapValues (buildGapMap shows))).filter (fun e => e.gap == g) =
        (mapValues (buildGapMap shows)).filter (fun e => e.gap == g)) := by
  have h1 : calculateTourProgressiveRarestSongs shows =
      (sortByDesc gapKey (mapValues (buildGapMap shows))).take 3 := by
    cases shows with
    | nil => rfl
    | cons s rest => rfl
  have hpw : List.Pairwise (fun a b : RarestEntry => b.gap ≤ a.gap)
      (calculateTourProgressiveRarestSongs shows) := by
    rw [h1]
    exact (sortByDesc_pairwise gapKey _).sublist (List.take_sublist _ _)
  refine ⟨h1, ?_, hpw, ?_, ?_⟩
  · rw [h1, List.length_take]
    exact min_le_left _ _
  · exact pairwise_adjacent _ hpw
  · intro g
    exact sortByDesc_filter_stable gapKey (mapValues (buildGapMap shows)) g

theorem rarest_output_sorted_top3_witness :
    demoEntryPAS.gap ≤ demoEntryOYWD.gap :=
  (rarest_output_sorted_top3 demoShows).2.2.2.1 0 demoEntryOYWD demoEntryPAS
    (by decide) (by decide)

/-- Claim C4: the longest-songs selector returns exactly the valid entries
(present record, numeric positive `durationSeconds`, non-empty `songName`)
stably sorted by duration descending and truncated to at most 3; every
record in the output is valid, so every invalid entry is excluded
regardless of its duration, silently (the selector is total). -/
theorem longest_songs_spec (tracks : List (Option Track)) :
    calculateLongestSongs tracks =
      (sortByDesc durKey (tracks.filterMap jsValidTrack)).take 3 ∧
    (calculateLongestSongs tracks).length ≤ 3 ∧
    List.Pairwise (fun a b : Track => durKey b ≤ durKey a) (calculateLongestSongs tracks) ∧
    (∀ t ∈ calculateLongestSongs tracks, isValidTrack t = true ∧
      ∃ d, t.durationSeconds = some d ∧ 0 < d ∧ t.songName ≠ "") ∧
    (∀ d : Int,
      (sortByDesc durKey (tracks.filterMap jsValidTrack)).filter (fun t => durKey t == d) =
        (tracks.filterMap jsValidTrack).filter (fun t => durKey t == d)) := by
  have h1 : calculateLongestSongs tracks =
      (sortByDesc durKey (tracks.filterMap jsValidTrack)).take 3 := by
    cases tracks with
    | nil => rfl
    | cons t rest => rfl
  have hpw : List.Pairwise (fun a b : Track => durKey b ≤ durKey a)
      (calculateLongestSongs tracks) := by
    rw [h1]
    exact (sortByDesc_pairwise durKey _).sublist (List.take_sublist _ _)
  refine ⟨h1, ?_, hpw, ?_, ?_⟩
  · rw [h1, List.length_take]
    exact min_le_left _ _
  · intro t ht
    have hmem : t ∈ tracks.filterMap jsValidTrack := by
      rw [h1] at ht
      exact (sortByDesc_perm durKey _).mem_iff.mp (List.mem_of_mem_take ht)
    obtain ⟨o, ho, hoeq⟩ := List.mem_filterMap.mp hmem
    have hval : isValidTrack t = true := by
      cases o with
      | none => simp [jsValidTrack] at hoeq
      | some t2 =>
        by_cases hv : isValidTrack t2 = true
        · simp only [jsValidTrack, if_pos hv, Option.some_inj] at hoeq
          subst hoeq
          exact hv
        · simp [jsValidTrack, hv] at hoeq
    refine ⟨hval, ?_⟩
    unfold isValidTrack at hval
    cases hd : t.durationSeconds with
    | none => rw [hd] at hval; simp at hval
    | some d =>
      rw [hd] at hval
      simp only [Bool.and_eq_true, decide_eq_true_eq] at hval
      exact ⟨d, rfl, hval.1, hval.2⟩
  · intro d
    exact sortByDesc_filter_stable durKey (tracks.filterMap jsValidTrack) d

theorem longest_songs_spec_witness :
    isValidTrack demoTrackSand = true ∧
    ∃ d, demoTrackSand.durationSeconds = some d ∧ 0 < d ∧ demoTrackSand.songName ≠ "" :=
  (longest_songs_spec demoTracks).2.2.2.1 demoTrackSand (by decide)

/-- Claim C5: on the three-show reference input the reducer returns
exactly, in order, On Your Way Down (gap 522, United Center, 2025-07-18),
Paul and Silas (gap 323, Bethel Woods Center for the Arts, 2025-06-24) and
Devotion To A Dream (gap 322, Pine Knob Music Theatre, 2025-07-11). -/
theorem rarest_concrete_scenario :
    calculateTourProgressiveRarestSongs demoShows =
      [demoEntryOYWD, demoEntryPAS, demoEntryDTAD] := by decide

/-- Claim C6: both selectors are total functions returning a (possibly
empty) list on every input: empty input yields the empty list, an invalid
observation or track record is skipped silently without affecting the rest
of the computation, and a gap of 0 passes validation and can appear in the
reducer's output. -/
theorem selectors_error_handling :
    calculateTourProgressiveRarestSongs [] = [] ∧
    calculateLongestSongs [] = [] ∧
    (∀ (s : TourShow) (m : GapMap) (g : GapInfo), validGap g = none → stepObs s m g = m) ∧
    (∀ (pre post : List (Option Track)) (o : Option Track), jsValidTrack o = none →
      calculateLongestSongs (pre ++ o :: post) = calculateLongestSongs (pre ++ post)) ∧
    (∀ g : GapInfo, g.songName ≠ "" → g.gap = some 0 → validGap g = some 0) ∧
    (calculateTourProgressiveRarestSongs [gapZeroShow]).map RarestEntry.gap = [0] := by
  refine ⟨rfl, rfl, ?_, ?_, ?_, by decide⟩
  · intro s m g hv
    exact stepObs_eq_skip s m g hv
  · intro pre post o ho
    have hfm : (pre ++ o :: post).filterMap jsValidTrack =
        (pre ++ post).filterMap jsValidTrack := by
      simp [List.filterMap_append, List.filterMap_cons, ho]
    rcases eq_or_ne (pre ++ post) [] with h2 | h2
    · obtain ⟨rfl, rfl⟩ := List.append_eq_nil.mp h2
      show calculateLongestSongs [o] = calculateLongestSongs []
      show (sortByDesc durKey (([o] : List (Option Track)).filterMap jsValidTrack)).take 3 = []
      have hnil : ([o] : List (Option Track)).filterMap jsValidTrack = [] := by
        simp [List.filterMap_cons, ho]
      rw [hnil]
      rfl
    · have h3 : pre ++ o :: post ≠ [] := by
        cases pre <;> simp
      have e1 : calculateLongestSongs (pre ++ o :: post) =
          (sortByDesc durKey ((pre ++ o :: post).filterMap jsValidTrack)).take 3 := by
        unfold calculateLongestSongs
        rw [if_neg (by simp [List.isEmpty_iff, h3])]
      have e2 : calculateLongestSongs (pre ++ post) =
          (sortByDesc durKey ((pre ++ post).filterMap jsValidTrack)).take 3 := by
        unfold calculateLongestSongs
        rw [if_neg (by simp [List.isEmpty_iff, h2])]
      rw [e1, e2, hfm]
  · intro g hname hgap
    simp [validGap, hname, hgap]

theorem selectors_error_handling_witness :
    calculateLongestSongs [(none : Option Track)] = calculateLongestSongs [] :=
  selectors_error_handling.2.2.2.1 [] [] none rfl

/-- Claim C7: both selectors are deterministic pure functions of their
input collections — identical inputs produce identical output sequences. -/
theorem selectors_deterministic (t1 t2 : List (Option Track)) (s1 s2 : List TourShow)
    (ht : t1 = t2) (hs : s1 = s2) :
    calculateLongestSongs t1 = calculateLongestSongs t2 ∧
    calculateTourProgressiveRarestSongs s1 = calculateTourProgressiveRarestSongs s2 := by
  subst ht
  subst hs
  exact ⟨rfl, rfl⟩

theorem selectors_deterministic_witness :
    calculateLongestSongs demoTracks = calculateLongestSongs demoTracks ∧
    calculateTourProgressiveRarestSongs demoShows =
      calculateTourProgressiveRarestSongs demoShows :=
  selectors_deterministic demoTracks demoTracks demoShows demoShows rfl rfl

/-- Claim C8: when the tour-wide external fetches fail, the aggregator
does not fail the run: the catch branch pairs an empty show list with
fallback durations, so the rarest-songs reducer is invoked on an empty
show sequence and returns an empty list, while the longest-songs input is
the degraded placeholder records derived from only the single latest
show's setlist. -/
theorem aggregator_fallback_policy (setlistFetch : FetchResult Setlist)
    (latestShowDate : String) :
    (fetchTourDataForCalculation .err .err setlistFetch latestShowDate).tourShows = [] ∧
    calculateTourProgressiveRarestSongs
      (fetchTourDataForCalculation .err .err setlistFetch latestShowDate).tourShows = [] ∧
    (fetchTourDataForCalculation .err .err setlistFetch latestShowDate).allTourTrackDurations =
      getFallbackTrackDurations setlistFetch latestShowDate ∧
    (∀ t ∈ (fetchTourDataForCalculation .err .err setlistFetch
        latestShowDate).allTourTrackDurations,
      ∃ tr : Track, t = some tr ∧ tr.showDate = some latestShowDate) := by
  refine ⟨rfl, rfl, rfl, ?_⟩
  intro t ht
  have ht2 : t ∈ getFallbackTrackDurations setlistFetch latestShowDate := ht
  cases setlistFetch with
  | err => exact absurd ht2 (List.not_mem_nil t)
  | ok sl =>
    simp only [getFallbackTrackDurations, List.mem_map] at ht2
    obtain ⟨p, hp, hpt⟩ := ht2
    exact ⟨_, hpt.symm, rfl⟩

theorem aggregator_fallback_policy_witness :
    ∃ tr : Track, (some fallbackTrackA : Option Track) = some tr ∧
      tr.showDate = some "2025-07-27" :=
  (aggregator_fallback_policy (.ok { songNames := ["Sample In A Jar"], venue := none })
      "2025-07-27").2.2.2 (some fallbackTrackA) (by decide)

/-- Claim C9: neither selector mutates its input: with the array
mutations made explicit, the input array's final contents equal its
initial contents and the computed result is the selector's output. -/
theorem selectors_input_unchanged (tracks : List (Option Track)) (shows : List TourShow) :
    (calculateLongestSongsTrace tracks).2 = tracks ∧
    (calculateLongestSongsTrace tracks).1 = calculateLongestSongs tracks ∧
    (calculateTourProgressiveRarestSongsTrace shows).2 = shows ∧
    (calculateTourProgressiveRarestSongsTrace shows).1 =
      calculateTourProgressiveRarestSongs shows := by
  refine ⟨?_, ?_, ?_, ?_⟩
  · unfold calculateLongestSongsTrace
    split <;> rfl
  · unfold calculateLongestSongsTrace calculateLongestSongs
    split <;> rfl
  · unfold calculateTourProgressiveRarestSongsTrace
    split <;> rfl
  · unfold calculateTourProgressiveRarestSongsTrace calculateTourProgressiveRarestSongs
    split <;> rfl

/-- Claim C10: in every record returned by the reducer, `timesPlayed`
equals 100 whenever the winning observation's `timesPlayed` is falsy —
absent or explicitly 0 — so an input value of 0 is silently replaced by
the sentinel 100; a non-zero value passes through. -/
theorem rarest_timesPlayed_falsy_sentinel (shows : List TourShow) (e : RarestEntry)
    (he : e ∈ calculateTourProgressiveRarestSongs shows) :
    ∃ s ∈ shows, ∃ gs, s.songGaps = some gs ∧ ∃ g ∈ gs, ∃ v, validGap g = some v ∧
      e = mkEntry s g v ∧
      ((g.timesPlayed = none ∨ g.timesPlayed = some 0) → e.timesPlayed = 100) ∧
      (∀ t : Int, g.timesPlayed = some t → t ≠ 0 → e.timesPlayed = t) := by
  obtain ⟨s, hs, gs, hgs, g, hg, v, hv, he2⟩ := rarest_output_sourced shows e he
  subst he2
  refine ⟨s, hs, gs, hgs, g, hg, v, hv, rfl, ?_, ?_⟩
  · rintro (h | h) <;> simp [mkEntry, jsOrInt, h]
  · intro t ht hne
    simp [mkEntry, jsOrInt, ht, hne]

theorem rarest_timesPlayed_falsy_sentinel_witness :
    ∃ s ∈ [tpShow], ∃ gs, s.songGaps = some gs ∧ ∃ g ∈ gs, ∃ v, validGap g = some v ∧
      tpEntry = mkEntry s g v ∧
      ((g.timesPlayed = none ∨ g.timesPlayed = some 0) → tpEntry.timesPlayed = 100) ∧
      (∀ t : Int, g.timesPlayed = some t → t ≠ 0 → tpEntry.timesPlayed = t) :=
  rarest_timesPlayed_falsy_sentinel [tpShow] tpEntry (by decide)

theorem selectors_input_unchanged_witness :
    (calculateLongestSongsTrace demoTracks).2 = demoTracks ∧
    (calculateLongestSongsTrace demoTracks).1 = calculateLongestSongs demoTracks ∧
    (calculateTourProgressiveRarestSongsTrace demoShows).2 = demoShows ∧
    (calculateTourProgressiveRarestSongsTrace demoShows).1 =
      calculateTourProgressiveRarestSongs demoShows :=
  selectors_input_unchanged demoTracks demoShows
